import Mathlib

/-!
Shallow embedding of the Coderzz.AI application core (src/output.py) and
theorems settling the specification's claims about it.  The embedding covers
the bandit policy engine (`get_action`, `update_Q`), the response parsing in
`display_main_app`, the credential store (`register_user`,
`authenticate_user`), the per-user tenant stores (`create_user_db`,
`load_chat_history`, `get_user_preferences`, `update_user_preferences`), the
registration callback, the request-submission flow, and the
`execute_python_code` helper.  Machine floats are modelled as exact
rationals; the external libraries (numpy, bcrypt, sqlite, requests, the
Python interpreter's `exec`) are modelled by their documented contracts,
with every call's observable effect made explicit.
-/

namespace Coderzz

/-- Models numpy `np.max` on a one-dimensional float array (external
library, modelled by its contract: the maximum element of a nonempty
array; the empty case never occurs in the program). -/
def np_max : List ℚ → ℚ
  | [] => 0
  | [x] => x
  | x :: y :: ys => max x (np_max (y :: ys))

/-- Models numpy `np.argmax` (external library, modelled by its documented
contract: the index of the first occurrence of the maximum value). -/
def np_argmax : List ℚ → Nat
  | [] => 0
  | [_] => 0
  | x :: y :: ys => if np_max (y :: ys) ≤ x then 0 else np_argmax (y :: ys) + 1

/-- The four prompt-template arms (`actions`, src/output.py lines 313-318);
`\x7b\x7d` renders the Python format placeholder. -/
def actions : List String :=
  ["Generate basic code for: \x7b\x7d",
   "Generate structured code with functions and error handling for: \x7b\x7d",
   "Generate code for: \x7b\x7d and add detailed comments for clarity",
   "Generate optimized code for: \x7b\x7d"]

/-- `num_actions = len(actions)` (src/output.py line 319). -/
def num_actions : Nat := actions.length

/-- `get_action` (src/output.py lines 325-330): epsilon-greedy selection.
The library calls `random.uniform(0, 1)` and
`random.choice(range(num_actions))` are made explicit as the arguments
`draw` (the uniform sample, a value in [0, 1]) and `randPick` (the random
choice, reduced modulo `num_actions` so any argument denotes a valid
member of `range(num_actions)`). -/
def get_action (Q_table : List ℚ) (epsilon draw : ℚ) (randPick : Nat) : Nat :=
  if draw < epsilon then randPick % num_actions else np_argmax Q_table

/-- `update_Q` (src/output.py lines 332-336).  `best_next = np.max(Q_table)`
is read before the chosen entry is overwritten in place; the in-place
numpy assignment becomes `List.set`.  The Python defaults
`learning_rate=0.1, discount_factor=0.9` are passed explicitly as
`1/10` and `9/10` at use sites. -/
def update_Q (Q_table : List ℚ) (action_idx : Nat) (reward : ℚ)
    (learning_rate discount_factor : ℚ) : List ℚ :=
  let best_next := np_max Q_table
  let old := Q_table.getD action_idx 0
  Q_table.set action_idx
    (old + learning_rate * (reward + discount_factor * best_next - old))

theorem np_max_cons (x : ℚ) (l : List ℚ) (h : l ≠ []) :
    np_max (x :: l) = max x (np_max l) := by
  cases l with
  | nil => exact absurd rfl h
  | cons y ys => rfl

theorem np_max_replicate_zero (K : Nat) : np_max (List.replicate K 0) = 0 := by
  induction K with
  | zero => rfl
  | succ n ih =>
    cases n with
    | zero => rfl
    | succ m =>
      rw [List.replicate_succ, np_max_cons 0 _ (by simp), ih]
      simp

theorem np_argmax_lt_length (l : List ℚ) (h : l ≠ []) :
    np_argmax l < l.length := by
  induction l with
  | nil => exact absurd rfl h
  | cons x xs ih =>
    cases xs with
    | nil => simp [np_argmax]
    | cons y ys =>
      by_cases hc : np_max (y :: ys) ≤ x
      · simp [np_argmax, hc]
      · have := ih (by simp)
        simp only [np_argmax, if_neg hc, List.length_cons] at this ⊢
        omega

theorem np_argmax_getD (l : List ℚ) (h : l ≠ []) :
    l.getD (np_argmax l) 0 = np_max l := by
  induction l with
  | nil => exact absurd rfl h
  | cons x xs ih =>
    cases xs with
    | nil => simp [np_argmax, np_max]
    | cons y ys =>
      by_cases hc : np_max (y :: ys) ≤ x
      · simp only [np_argmax, if_pos hc, List.getD]
        rw [np_max_cons x _ (by simp), max_eq_left hc]
        rfl
      · simp only [np_argmax, if_neg hc]
        rw [np_max_cons x _ (by simp), max_eq_right (le_of_not_le hc)]
        simpa using ih (by simp)

theorem np_argmax_first (l : List ℚ) (j : Nat) (hj : j < np_argmax l) :
    l.getD j 0 < np_max l := by
  induction l generalizing j with
  | nil => simp [np_argmax] at hj
  | cons x xs ih =>
    cases xs with
    | nil => simp [np_argmax] at hj
    | cons y ys =>
      by_cases hc : np_max (y :: ys) ≤ x
      · simp [np_argmax, hc] at hj
      · simp only [np_argmax, if_neg hc] at hj
        rw [np_max_cons x _ (by simp), max_eq_right (le_of_not_le hc)]
        cases j with
        | zero => exact lt_of_not_le hc
        | succ j => exact ih j (by omega)

/-- C1: `update_Q` with learning rate 0.1 and discount 0.9 rewrites only the
chosen entry, setting it to `V[i] + 0.1 * (r + 0.9 * max(V) - V[i])` where
`max(V)` is taken before the update; every other entry and the length are
unchanged, and on an all-zero table a single update with reward `R` sets
the chosen entry to `0.1 * R`. -/
theorem update_rule (V : List ℚ) (i : Nat) (r : ℚ) (hi : i < V.length) :
    (update_Q V i r (1/10) (9/10)).getD i 0
        = V.getD i 0 + (1/10) * (r + (9/10) * np_max V - V.getD i 0)
    ∧ (∀ j, j ≠ i → (update_Q V i r (1/10) (9/10)).getD j 0 = V.getD j 0)
    ∧ (update_Q V i r (1/10) (9/10)).length = V.length
    ∧ (∀ K k R, k < K →
        (update_Q (List.replicate K 0) k R (1/10) (9/10)).getD k 0 = (1/10) * R) := by
  refine ⟨?_, ?_, ?_, ?_⟩
  · simp [update_Q, List.getD_eq_getElem?_getD, List.getElem?_set_self hi]
  · intro j hj
    simp [update_Q, List.getD_eq_getElem?_getD, List.getElem?_set_ne (Ne.symm hj)]
  · simp [update_Q]
  · intro K k R hk
    have hk' : k < (List.replicate (α := ℚ) K 0).length := by simpa using hk
    simp [update_Q, np_max_replicate_zero, List.getD_eq_getElem?_getD,
      List.getElem?_set_self hk', List.getElem?_replicate, hk]

theorem update_rule_witness :
    (0 : Nat) < ([1, 2] : List ℚ).length
    ∧ ((update_Q [1, 2] 0 3 (1/10) (9/10)).getD 0 0
        = ([1, 2] : List ℚ).getD 0 0
          + (1/10) * (3 + (9/10) * np_max [1, 2] - ([1, 2] : List ℚ).getD 0 0)
      ∧ (∀ j, j ≠ 0 → (update_Q [1, 2] 0 3 (1/10) (9/10)).getD j 0
            = ([1, 2] : List ℚ).getD j 0)
      ∧ (update_Q [1, 2] 0 3 (1/10) (9/10)).length = ([1, 2] : List ℚ).length
      ∧ (∀ K k R, k < K →
          (update_Q (List.replicate K 0) k R (1/10) (9/10)).getD k 0 = (1/10) * R)) :=
  ⟨by decide, update_rule [1, 2] 0 3 (by decide)⟩

/-- C2: with `epsilon = 0` the uniform draw (a value ≥ 0) is never below
epsilon, so `get_action` deterministically returns `np.argmax`, the lowest
index achieving the maximum of the table; in particular it returns 0 on
the all-zero table `[0, 0, 0, 0]`. -/
theorem select_action_zero_epsilon (V : List ℚ) (draw : ℚ) (rp : Nat)
    (hV : V ≠ []) (hdraw : 0 ≤ draw) :
    get_action V 0 draw rp < V.length
    ∧ V.getD (get_action V 0 draw rp) 0 = np_max V
    ∧ (∀ j, V.getD j 0 = np_max V → get_action V 0 draw rp ≤ j)
    ∧ get_action [0, 0, 0, 0] 0 draw rp = 0 := by
  have hbr : ¬ draw < 0 := not_lt.mpr hdraw
  have hga : get_action V 0 draw rp = np_argmax V := by
    simp [get_action, hbr]
  refine ⟨?_, ?_, ?_, ?_⟩
  · rw [hga]; exact np_argmax_lt_length V hV
  · rw [hga]; exact np_argmax_getD V hV
  · intro j hj
    rw [hga]
    by_contra hlt
    exact absurd hj (ne_of_lt (np_argmax_first V j (by omega)))
  · simp [get_action, hbr, np_argmax, np_max]

theorem select_action_zero_epsilon_witness :
    (([0, 0, 0, 0] : List ℚ) ≠ [] ∧ (0 : ℚ) ≤ 1/2)
    ∧ (get_action [0, 0, 0, 0] 0 (1/2) 3 < ([0, 0, 0, 0] : List ℚ).length
      ∧ ([0, 0, 0, 0] : List ℚ).getD (get_action [0, 0, 0, 0] 0 (1/2) 3) 0
          = np_max [0, 0, 0, 0]
      ∧ (∀ j, ([0, 0, 0, 0] : List ℚ).getD j 0 = np_max [0, 0, 0, 0] →
          get_action [0, 0, 0, 0] 0 (1/2) 3 ≤ j)
      ∧ get_action [0, 0, 0, 0] 0 (1/2) 3 = 0) :=
  ⟨⟨by decide, by norm_num⟩,
   select_action_zero_epsilon [0, 0, 0, 0] (1/2) 3 (by decide) (by norm_num)⟩

/-- Python `s.strip()` on the characters of `s`: whitespace removed from
both ends (modelled with `Char.isWhitespace`). -/
def pyStrip (s : List Char) : List Char :=
  ((s.dropWhile Char.isWhitespace).reverse.dropWhile Char.isWhitespace).reverse

/-- Python `s.split(sep)` for a nonempty separator: the pieces of `s` cut at
the left-to-right, non-overlapping occurrences of `sep`.  `fuel` bounds the
recursion by the length of the remaining text (every step consumes at least
one character), which keeps the definition structural and so computable by
the kernel; `acc` holds the current piece reversed. -/
def pySplitFuel (sep : List Char) : Nat → List Char → List Char → List (List Char)
  | _, [], acc => [acc.reverse]
  | 0, s, acc => [acc.reverse ++ s]
  | fuel + 1, c :: rest, acc =>
      if sep.isPrefixOf (c :: rest) then
        acc.reverse :: pySplitFuel sep fuel (List.drop (sep.length - 1) rest) []
      else pySplitFuel sep fuel rest (c :: acc)

/-- Python `s.split(sep)`. -/
def pySplit (s sep : List Char) : List (List Char) :=
  pySplitFuel sep s.length s []

/-- Python `sep in s`: whether the substring occurs, read off the split. -/
def pyContains (s sep : List Char) : Bool := (pySplit s sep).length != 1

/-- The fenced-block delimiter the response handling looks for. -/
def fence : String := "```"

/-- Response handling in `display_main_app` (src/output.py lines 985-992):
`generated_code = response.json().get("response", "").strip()`; when that
text contains the fence delimiter, the first fenced block is re-assembled
with delimiters around it (`generated_code = "```" + code_blocks[1] + "```"`);
otherwise the stripped text is kept as the artifact. -/
def parseResponse (raw : String) : String :=
  let generated := pyStrip raw.data
  if pyContains generated fence.data then
    ⟨fence.data ++ (pySplit generated fence.data).getD 1 [] ++ fence.data⟩
  else ⟨generated⟩

/-- Stated from claim C3's words, for comparison with `parseResponse`: the
artifact is exactly the contents of the first fenced block, without the
fence delimiters, when a delimiter occurs; otherwise the whole trimmed
response text. -/
def claimedArtifact (raw : String) : String :=
  let t := pyStrip raw.data
  if pyContains t fence.data then ⟨(pySplit t fence.data).getD 1 []⟩ else ⟨t⟩

/-- C3 counterexample: on the response text `"```python\nprint(1)\n```"` the
code stores the first fenced block with the fence delimiters re-attached,
not the block's bare contents as the claim states. -/
theorem stored_artifact_keeps_fences :
    parseResponse "```python\nprint(1)\n```" = "```python\nprint(1)\n```"
    ∧ claimedArtifact "```python\nprint(1)\n```" = "python\nprint(1)\n"
    ∧ parseResponse "```python\nprint(1)\n```"
        ≠ claimedArtifact "```python\nprint(1)\n```" :=
  ⟨by decide, by decide, by decide⟩

/-- C3 corrected: when the stripped response text contains a fence
delimiter, the stored artifact is the first fenced block's contents
wrapped again in the delimiters; otherwise it is the whole stripped
response text. -/
theorem parse_response_amended (raw : String) :
    (pyContains (pyStrip raw.data) fence.data = true →
      (parseResponse raw).data
        = fence.data ++ (claimedArtifact raw).data ++ fence.data)
    ∧ (pyContains (pyStrip raw.data) fence.data = false →
      (parseResponse raw).data = pyStrip raw.data) := by
  constructor <;> intro h <;> simp [parseResponse, claimedArtifact, h]

theorem parse_response_amended_witness :
    (pyContains (pyStrip "x ```a``` y".data) fence.data = true
      ∧ (parseResponse "x ```a``` y").data
          = fence.data ++ (claimedArtifact "x ```a``` y").data ++ fence.data)
    ∧ (pyContains (pyStrip " plain ".data) fence.data = false
      ∧ (parseResponse " plain ").data = pyStrip " plain ".data) :=
  ⟨⟨by decide, (parse_response_amended "x ```a``` y").1 (by decide)⟩,
   ⟨by decide, (parse_response_amended " plain ").2 (by decide)⟩⟩

/-- One row of the per-user `chat_history` table (src/output.py lines
84-91).  The `"%Y-%m-%d %H:%M:%S"` timestamp text is modelled as a natural
number, since that zero-padded format compares lexicographically exactly
as the instants do. -/
structure ChatEntry where
  timestamp : Nat
  user_input : String
  generated_code : String
deriving DecidableEq, Repr

/-- One row of the per-user `user_preferences` table (src/output.py lines
94-100); floats are exact rationals. -/
structure Preferences where
  temperature : ℚ
  speed : Int
  favorite_language : String
deriving DecidableEq, Repr

/-- The column defaults of `user_preferences` (src/output.py lines 97-99). -/
def defaultPreferences : Preferences := ⟨7/10, 5, "python"⟩

/-- A per-user SQLite file `user_databases/{username}.sqlite`.  Rows are
kept in insertion order; neither table ever sees a DELETE, so the
AUTOINCREMENT id of the row at list position `k` is `k + 1`. -/
structure TenantDB where
  chat_history : List ChatEntry
  user_preferences : List Preferences
deriving DecidableEq, Repr

/-- `sqlite3.connect` on a missing file yields a database with no rows (the
tables are then made by `CREATE TABLE IF NOT EXISTS`). -/
def emptyTenantDB : TenantDB := ⟨[], []⟩

/-- `create_user_db` (src/output.py lines 79-108): connecting creates the
file when absent, `CREATE TABLE IF NOT EXISTS` leaves any existing rows
alone, and the trailing INSERT unconditionally appends one default
preferences row. -/
def create_user_db (store : Option TenantDB) : TenantDB :=
  let db := store.getD emptyTenantDB
  { db with user_preferences := db.user_preferences ++ [defaultPreferences] }

/-- A bcrypt hash (external library), modelled by its contract:
`bcrypt.checkpw(p, bcrypt.hashpw(q, gensalt()))` holds exactly when
`p = q`; the salt and digest bytes are not otherwise observable. -/
structure BcryptHash where
  source : String
deriving DecidableEq, Repr

/-- `hash_password` (src/output.py lines 111-113), under the bcrypt model. -/
def hash_password (password : String) : BcryptHash := ⟨password⟩

/-- `verify_password` (src/output.py lines 114-125), under the bcrypt
model: `bcrypt.checkpw` of the candidate against the stored hash. -/
def verify_password (password : String) (hashed : BcryptHash) : Bool :=
  password == hashed.source

/-- One row of the shared `users` table (src/output.py lines 34-41). -/
structure UserRow where
  username : String
  password : BcryptHash
  created_at : Nat
deriving DecidableEq, Repr

/-- The persistent state: the shared `user_db.sqlite` rows plus the
directory of per-user store files, as an association list keyed by
username. -/
structure Stores where
  users : List UserRow
  tenants : List (String × TenantDB)
deriving DecidableEq, Repr

/-- `SELECT password FROM users WHERE username = ?` (first matching row). -/
def lookupPassword (users : List UserRow) (username : String) :
    Option BcryptHash :=
  (users.find? (fun r => r.username == username)).map (·.password)

/-- Opening the per-user store file `user_databases/{username}.sqlite`,
`none` when the file does not exist. -/
def lookupTenant (tenants : List (String × TenantDB)) (username : String) :
    Option TenantDB :=
  (tenants.find? (fun t => t.1 == username)).map (·.2)

/-- Writing a per-user store file back into the directory. -/
def setTenant (tenants : List (String × TenantDB)) (username : String)
    (db : TenantDB) : List (String × TenantDB) :=
  match tenants with
  | [] => [(username, db)]
  | t :: ts =>
      if t.1 == username then (username, db) :: ts
      else t :: setTenant ts username db

/-- `register_user` (src/output.py lines 126-143): the INSERT hits the
UNIQUE constraint (an `IntegrityError`, reported as "Username already
exists.") exactly when the username is already present; on success the
hashed row is inserted and `create_user_db` runs on the user's store. -/
def register_user (s : Stores) (username password : String) (now : Nat) :
    Stores × Bool × String :=
  match lookupPassword s.users username with
  | some _ => (s, false, "Username already exists.")
  | none =>
      let users := s.users ++ [⟨username, hash_password password, now⟩]
      let tenants := setTenant s.tenants username
        (create_user_db (lookupTenant s.tenants username))
      (⟨users, tenants⟩, true, "Registration successful!")

/-- `authenticate_user` (src/output.py lines 145-158): look the username up
first, then check the password against the stored hash. -/
def authenticate_user (s : Stores) (username password : String) :
    Bool × String :=
  match lookupPassword s.users username with
  | some hashed =>
      if verify_password password hashed then (true, "Login successful!")
      else (false, "Incorrect password.")
  | none => (false, "Username not found.")

/-- C5 counterexample: two `create_user_db` calls on the same user's store
leave two default preferences rows, so creation is not a no-op on an
existing store and the store does not keep exactly one row. -/
theorem create_user_db_not_idempotent :
    (create_user_db (some (create_user_db none))).user_preferences.length = 2
    ∧ (create_user_db (some (create_user_db none))).user_preferences.length
        ≠ 1 :=
  ⟨by decide, by decide⟩

/-- C5 corrected: a single `create_user_db` on an absent store seeds exactly
one default preferences row (0.7, 5, "python"); on an existing store the
call keeps the chat history and the existing preference rows but appends
one more default row, so `n` calls leave `n` rows rather than one. -/
theorem create_user_db_amended :
    (create_user_db none).user_preferences = [defaultPreferences]
    ∧ ∀ db : TenantDB,
        (create_user_db (some db)).user_preferences
            = db.user_preferences ++ [defaultPreferences]
        ∧ (create_user_db (some db)).user_preferences.length
            = db.user_preferences.length + 1
        ∧ (create_user_db (some db)).chat_history = db.chat_history :=
  ⟨rfl, fun db => ⟨rfl, by simp [create_user_db], rfl⟩⟩

/-- C6: with username `u` absent, `register_user u q` succeeds and a later
`authenticate_user u p` succeeds exactly when `p = q`; with `p ≠ q` it
fails with "Incorrect password.", and on the original store (where `u` was
never registered) it fails with "Username not found.". -/
theorem authenticate_iff_registered (s : Stores) (u p q : String) (now : Nat)
    (habs : lookupPassword s.users u = none) :
    ((authenticate_user (register_user s u q now).1 u p).1 = true ↔ p = q)
    ∧ (p ≠ q → authenticate_user (register_user s u q now).1 u p
        = (false, "Incorrect password."))
    ∧ authenticate_user s u p = (false, "Username not found.") := by
  have hfind : s.users.find? (fun r => r.username == u) = none := by
    simpa [lookupPassword] using habs
  have hlook : lookupPassword
      (s.users ++ [⟨u, ⟨q⟩, now⟩]) u = some ⟨q⟩ := by
    simp [lookupPassword, List.find?_append, hfind]
  refine ⟨?_, ?_, ?_⟩
  · simp only [register_user, habs, hash_password, authenticate_user, hlook,
      verify_password]
    by_cases hpq : p = q <;> simp [hpq]
  · intro hpq
    simp only [register_user, habs, hash_password, authenticate_user, hlook,
      verify_password]
    simp [hpq]
  · simp [authenticate_user, habs]

theorem authenticate_iff_registered_witness :
    lookupPassword (Stores.mk [] []).users "alice" = none
    ∧ (((authenticate_user
          (register_user ⟨[], []⟩ "alice" "secret1" 0).1 "alice" "wrong").1
            = true ↔ ("wrong" : String) = "secret1")
      ∧ (("wrong" : String) ≠ "secret1" →
          authenticate_user (register_user ⟨[], []⟩ "alice" "secret1" 0).1
            "alice" "wrong" = (false, "Incorrect password."))
      ∧ authenticate_user ⟨[], []⟩ "alice" "wrong"
          = (false, "Username not found.")) :=
  ⟨by decide, authenticate_iff_registered ⟨[], []⟩ "alice" "wrong" "secret1" 0
    (by decide)⟩

/-- `get_user_preferences` (src/output.py lines 185-200): defaults when the
store file is missing, otherwise `SELECT ... LIMIT 1` returns the first
row, with defaults again when the table holds no row. -/
def get_user_preferences (store : Option TenantDB) : Preferences :=
  match store with
  | none => defaultPreferences
  | some db => db.user_preferences.headD defaultPreferences

/-- `UPDATE user_preferences SET ... WHERE id = 1`: rewrites the row whose
AUTOINCREMENT id is 1, that is the first row when one exists (ids here are
`position + 1` and no row is ever deleted); with no matching row the
UPDATE changes nothing. -/
def updateRowId1 (rows : List Preferences) (p : Preferences) :
    List Preferences :=
  match rows with
  | [] => []
  | _ :: tl => p :: tl

/-- `update_user_preferences` (src/output.py lines 202-213): on a missing
store file `sqlite3.connect` makes an empty database and the UPDATE then
raises an uncaught `OperationalError` (no `user_preferences` table); on an
existing store it rewrites row id 1. -/
def update_user_preferences (store : Option TenantDB) (p : Preferences) :
    Except String TenantDB :=
  match store with
  | none => .error "no such table: user_preferences"
  | some db => .ok { db with user_preferences := updateRowId1 db.user_preferences p }

/-- C7: on a store with at least one preferences row (every store produced
by registration has one), writing preferences and reading them back
returns exactly what was written; this is the logout-persist / re-login
round trip. -/
theorem preferences_roundtrip (db : TenantDB) (p : Preferences)
    (db' : TenantDB) (hne : db.user_preferences ≠ [])
    (hupd : update_user_preferences (some db) p = .ok db') :
    get_user_preferences (some db') = p := by
  cases hrows : db.user_preferences with
  | nil => exact absurd hrows hne
  | cons hd tl =>
      simp only [update_user_preferences, updateRowId1, hrows, Except.ok.injEq]
        at hupd
      subst hupd
      simp [get_user_preferences]

/-- C7 witness: the spec's scenario — a freshly registered store holds the
default row; the session sets temperature 0.9 and speed 8, logout persists
them, and re-login loads Preferences (0.9, 8, "python") with the favorite
language unchanged. -/
theorem preferences_roundtrip_witness :
    (create_user_db none).user_preferences ≠ []
    ∧ update_user_preferences (some (create_user_db none))
        ⟨9/10, 8, "python"⟩ = .ok ⟨[], [⟨9/10, 8, "python"⟩]⟩
    ∧ get_user_preferences (some ⟨[], [⟨9/10, 8, "python"⟩]⟩)
        = ⟨9/10, 8, "python"⟩ :=
  ⟨by decide, by rfl,
   preferences_roundtrip (create_user_db none) ⟨9/10, 8, "python"⟩
     ⟨[], [⟨9/10, 8, "python"⟩]⟩ (by decide) (by rfl)⟩

/-- The comparison behind `ORDER BY timestamp DESC`. -/
def tsDesc (a b : ChatEntry) : Bool := b.timestamp ≤ a.timestamp

/-- Insertion of one row into a timestamp-descending list, the building
block of the sort modelling SQLite's ORDER BY. -/
def insertDesc (e : ChatEntry) : List ChatEntry → List ChatEntry
  | [] => [e]
  | x :: xs => if tsDesc e x then e :: x :: xs else x :: insertDesc e xs

/-- Sorting by timestamp descending (insertion sort).  SQLite leaves the
order of rows with equal keys unspecified; this sort realises one such
order. -/
def sortDesc : List ChatEntry → List ChatEntry
  | [] => []
  | x :: xs => insertDesc x (sortDesc xs)

/-- `load_chat_history` (src/output.py lines 172-183): the empty list when
the store file is missing, otherwise the rows ordered by timestamp
descending (`ORDER BY timestamp DESC`) and capped by `LIMIT 10`. -/
def load_chat_history (store : Option TenantDB) : List ChatEntry :=
  match store with
  | none => []
  | some db => (sortDesc db.chat_history).take 10

theorem mem_insertDesc (a e : ChatEntry) (l : List ChatEntry) :
    a ∈ insertDesc e l ↔ a = e ∨ a ∈ l := by
  induction l with
  | nil => simp [insertDesc]
  | cons x xs ih =>
      by_cases h : tsDesc e x
      · simp [insertDesc, h]
      · simp [insertDesc, h, ih]
        tauto

theorem mem_sortDesc (a : ChatEntry) (l : List ChatEntry) :
    a ∈ sortDesc l ↔ a ∈ l := by
  induction l with
  | nil => simp [sortDesc]
  | cons x xs ih => simp [sortDesc, mem_insertDesc, ih]

theorem pairwise_insertDesc (e : ChatEntry) (l : List ChatEntry)
    (h : l.Pairwise (fun a b => b.timestamp ≤ a.timestamp)) :
    (insertDesc e l).Pairwise (fun a b => b.timestamp ≤ a.timestamp) := by
  induction l with
  | nil => simp [insertDesc]
  | cons x xs ih =>
      rcases List.pairwise_cons.mp h with ⟨hx, hxs⟩
      by_cases hc : tsDesc e x
      · have hex : x.timestamp ≤ e.timestamp := by
          simpa [tsDesc] using hc
        rw [insertDesc, if_pos hc]
        refine List.pairwise_cons.mpr ⟨?_, h⟩
        intro b hb
        rcases List.mem_cons.mp hb with rfl | hb
        · exact hex
        · exact le_trans (hx b hb) hex
      · have hxe : x.timestamp < e.timestamp → False := by
          intro hlt
          exact hc (by simp [tsDesc]; omega)
        have hxe' : e.timestamp ≤ x.timestamp := by
          by_contra hcon
          exact hxe (by omega)
        rw [insertDesc, if_neg hc]
        refine List.pairwise_cons.mpr ⟨?_, ih hxs⟩
        intro b hb
        rcases (mem_insertDesc b e xs).mp hb with rfl | hb
        · exact hxe'
        · exact hx b hb

theorem pairwise_sortDesc (l : List ChatEntry) :
    (sortDesc l).Pairwise (fun a b => b.timestamp ≤ a.timestamp) := by
  induction l with
  | nil => simp [sortDesc]
  | cons x xs ih => exact pairwise_insertDesc x (sortDesc xs) ih

theorem perm_insertDesc (e : ChatEntry) (l : List ChatEntry) :
    (insertDesc e l).Perm (e :: l) := by
  induction l with
  | nil => exact List.Perm.refl _
  | cons x xs ih =>
      by_cases h : tsDesc e x
      · rw [insertDesc, if_pos h]
      · rw [insertDesc, if_neg h]
        exact (List.Perm.cons x ih).trans (List.Perm.swap e x xs)

theorem perm_sortDesc (l : List ChatEntry) : (sortDesc l).Perm l := by
  induction l with
  | nil => exact List.Perm.refl _
  | cons x xs ih =>
      exact (perm_insertDesc x (sortDesc xs)).trans (List.Perm.cons x ih)

/-- C8: `load_chat_history` returns the empty sequence (never an error) on
a missing store; otherwise it returns the stored ChatEntries
most-recent-first and bounded to the 10 cap: at most 10 entries and
exactly `min 10 n` of the `n` stored ones, pairwise non-increasing
timestamps, every returned entry is a stored entry, a store holding at
most 10 entries is returned in full (a permutation of the stored rows),
and any stored entry the cap leaves out is no more recent than every
returned entry. -/
theorem load_recent_chat_spec :
    load_chat_history none = []
    ∧ ∀ db : TenantDB,
        (load_chat_history (some db)).length ≤ 10
        ∧ List.Pairwise (fun a b : ChatEntry => b.timestamp ≤ a.timestamp)
            (load_chat_history (some db))
        ∧ (∀ e ∈ load_chat_history (some db), e ∈ db.chat_history)
        ∧ (load_chat_history (some db)).length = min 10 db.chat_history.length
        ∧ (db.chat_history.length ≤ 10 →
            (load_chat_history (some db)).Perm db.chat_history)
        ∧ (∀ x ∈ db.chat_history, x ∉ load_chat_history (some db) →
            ∀ e ∈ load_chat_history (some db), x.timestamp ≤ e.timestamp) := by
  refine ⟨rfl, fun db => ?_⟩
  have hperm : (sortDesc db.chat_history).Perm db.chat_history :=
    perm_sortDesc db.chat_history
  have hlen : (sortDesc db.chat_history).length = db.chat_history.length :=
    hperm.length_eq
  have hpw := pairwise_sortDesc db.chat_history
  refine ⟨?_, ?_, ?_, ?_, ?_, ?_⟩
  · simp [load_chat_history, List.length_take]
  · exact List.Pairwise.sublist (List.take_sublist 10 _) hpw
  · intro e he
    simp only [load_chat_history] at he
    exact (mem_sortDesc e db.chat_history).mp ((List.take_sublist 10 _).mem he)
  · simp [load_chat_history, List.length_take, hlen]
  · intro hle
    have htake : (sortDesc db.chat_history).take 10 = sortDesc db.chat_history :=
      List.take_of_length_le (by omega)
    simpa [load_chat_history, htake] using hperm
  · intro x hx hnx e he
    simp only [load_chat_history] at hnx he
    have hxs : x ∈ sortDesc db.chat_history :=
      (mem_sortDesc x db.chat_history).mpr hx
    have hsplit : (sortDesc db.chat_history).take 10
        ++ (sortDesc db.chat_history).drop 10 = sortDesc db.chat_history :=
      List.take_append_drop 10 _
    have hxdrop : x ∈ (sortDesc db.chat_history).drop 10 := by
      rcases List.mem_append.mp (hsplit ▸ hxs) with h | h
      · exact absurd h hnx
      · exact h
    have hpw' := hsplit ▸ hpw
    exact (List.pairwise_append.mp hpw').2.2 e he x hxdrop

/-- C8 witness: a concrete two-entry store; the newest entry is returned
and stored, and the whole store (2 ≤ 10 entries) comes back as a
permutation of the stored rows. -/
theorem load_recent_chat_witness :
    (⟨2, "b", "y"⟩ : ChatEntry)
        ∈ load_chat_history (some ⟨[⟨1, "a", "x"⟩, ⟨2, "b", "y"⟩], []⟩)
    ∧ (⟨2, "b", "y"⟩ : ChatEntry) ∈ [⟨1, "a", "x"⟩, (⟨2, "b", "y"⟩ : ChatEntry)]
    ∧ ([⟨1, "a", "x"⟩, (⟨2, "b", "y"⟩ : ChatEntry)] : List ChatEntry).length ≤ 10
    ∧ (load_chat_history (some ⟨[⟨1, "a", "x"⟩, ⟨2, "b", "y"⟩], []⟩)).Perm
        [⟨1, "a", "x"⟩, ⟨2, "b", "y"⟩] :=
  ⟨by decide,
   (load_recent_chat_spec.2 ⟨[⟨1, "a", "x"⟩, ⟨2, "b", "y"⟩], []⟩).2.2.1
     ⟨2, "b", "y"⟩ (by decide),
   by decide,
   (load_recent_chat_spec.2 ⟨[⟨1, "a", "x"⟩, ⟨2, "b", "y"⟩], []⟩).2.2.2.2.1
     (by decide)⟩

/-- A value raised by executed Python code: either an instance of
`Exception`, or a `BaseException` outside the `Exception` hierarchy
(`SystemExit`, `KeyboardInterrupt`, `GeneratorExit`), with its message. -/
inductive PyRaised where
  | exc (msg : String)
  | baseOnly (className msg : String)
deriving DecidableEq, Repr

/-- What one `exec(code_to_execute, {}, local_namespace)` run does for a
given source text and environment: run to completion, or raise, in both
cases having written `out` and `err` to the redirected streams.  Arbitrary
Python execution is not computable here, so the run's behaviour is the
model's input. -/
inductive ExecBehavior where
  | normal (out err : String)
  | raises (out err : String) (e : PyRaised)
deriving DecidableEq, Repr

/-- `execute_python_code` (src/output.py lines 282-310): the output streams
are captured into buffers; `except Exception` turns a raised `Exception`
into `print(f"Error: {str(e)}", file=stderr_buffer)` — the message appended
to the stderr buffer, with print's newline — and a false success flag; a
raised `BaseException` outside the `Exception` hierarchy matches no
handler and escapes to the caller (`Except.error`). -/
def execute_python_code (run : ExecBehavior) :
    Except PyRaised (String × String × Bool) :=
  match run with
  | .normal out err => .ok (out, err, true)
  | .raises out err (.exc msg) =>
      .ok (out, err ++ "Error: " ++ msg ++ "\n", false)
  | .raises _ _ (.baseOnly c m) => .error (.baseOnly c m)

/-- C9 counterexample: a snippet raising `SystemExit` — e.g. the source
text `raise SystemExit()` — escapes `except Exception` and propagates to
the caller, so execution is not exception-free for every input source. -/
theorem execute_propagates_base_exception :
    execute_python_code (.raises "" "" (.baseOnly "SystemExit" ""))
        = .error (.baseOnly "SystemExit" "")
    ∧ (execute_python_code (.raises "" "" (.baseOnly "SystemExit" ""))).isOk
        = false :=
  ⟨rfl, rfl⟩

/-- C9 corrected: execution returns the captured `(stdout, stderr,
succeeded)` triple without propagating whenever the executed code runs to
completion or raises an instance of `Exception`; a raised `Exception` is
caught, "Error: " plus its message is appended to the stderr buffer, and
`succeeded` is false; only a raised `BaseException` outside the
`Exception` hierarchy (such as `SystemExit`) propagates to the caller. -/
theorem execute_catches_exceptions (run : ExecBehavior) :
    (∀ out err, run = .normal out err →
      execute_python_code run = .ok (out, err, true))
    ∧ (∀ out err msg, run = .raises out err (.exc msg) →
      execute_python_code run
        = .ok (out, err ++ "Error: " ++ msg ++ "\n", false))
    ∧ (∀ out err c m, run = .raises out err (.baseOnly c m) →
      execute_python_code run = .error (.baseOnly c m)) := by
  refine ⟨fun o e h => ?_, fun o e m h => ?_, fun o e c m h => ?_⟩ <;>
    subst h <;> rfl

theorem execute_catches_exceptions_witness :
    (ExecBehavior.raises "out" "err" (.exc "boom")
        = .raises "out" "err" (.exc "boom"))
    ∧ execute_python_code (.raises "out" "err" (.exc "boom"))
        = .ok ("out", "err" ++ "Error: " ++ "boom" ++ "\n", false) :=
  ⟨rfl, (execute_catches_exceptions (.raises "out" "err" (.exc "boom"))).2.1
    "out" "err" "boom" rfl⟩

/-- The slice of the Streamlit session state that the authentication
callbacks read and write (src/output.py lines 249-256). -/
structure AuthSession where
  authenticated : Bool
  username : String
  register_error : String
deriving DecidableEq, Repr

/-- `register_callback` (src/output.py lines 739-759): the two validations
run before `register_user` is reached, each returning early having set
only the error message; otherwise registration runs and, on success, the
session becomes authenticated. -/
def register_callback (stores : Stores) (session : AuthSession)
    (username password confirm_password : String) (now : Nat) :
    Stores × AuthSession :=
  if password ≠ confirm_password then
    (stores, { session with register_error := "Passwords do not match." })
  else if password.length < 6 then
    (stores,
     { session with
        register_error := "Password must be at least 6 characters long." })
  else
    let r := register_user stores username password now
    if r.2.1 then
      (r.1,
       { session with
          authenticated := true
          username := username
          register_error := "" })
    else
      (r.1, { session with register_error := r.2.2 })

/-- C10: when the password and its confirmation differ, or the password is
shorter than 6 characters, `register_callback` rejects the request with
the matching error message and touches nothing else: the credential store
and the tenant stores are unchanged, and the session's authentication
flag and username keep their previous values (an unauthenticated session
stays unauthenticated). -/
theorem register_validation (stores : Stores) (session : AuthSession)
    (u p c : String) (now : Nat) (hbad : p ≠ c ∨ p.length < 6) :
    (register_callback stores session u p c now).1 = stores
    ∧ (register_callback stores session u p c now).2.authenticated
        = session.authenticated
    ∧ (register_callback stores session u p c now).2.username
        = session.username
    ∧ (register_callback stores session u p c now).2.register_error
        = (if p ≠ c then "Passwords do not match."
           else "Password must be at least 6 characters long.") := by
  by_cases hpc : p = c
  · rcases hbad with h | hlen
    · exact absurd hpc h
    · subst hpc
      simp [register_callback, hlen]
  · simp [register_callback, hpc]

theorem register_validation_witness :
    (("abc" : String) ≠ "abc" ∨ ("abc" : String).length < 6)
    ∧ ((register_callback ⟨[], []⟩ ⟨false, "", ""⟩ "bob" "abc" "abc" 0).1
          = (⟨[], []⟩ : Stores)
      ∧ (register_callback ⟨[], []⟩ ⟨false, "", ""⟩ "bob" "abc" "abc" 0).2.authenticated
          = (AuthSession.mk false "" "").authenticated
      ∧ (register_callback ⟨[], []⟩ ⟨false, "", ""⟩ "bob" "abc" "abc" 0).2.username
          = (AuthSession.mk false "" "").username
      ∧ (register_callback ⟨[], []⟩ ⟨false, "", ""⟩ "bob" "abc" "abc" 0).2.register_error
          = (if ("abc" : String) ≠ "abc" then "Passwords do not match."
             else "Password must be at least 6 characters long.")) :=
  ⟨Or.inr (by decide),
   register_validation ⟨[], []⟩ ⟨false, "", ""⟩ "bob" "abc" "abc" 0
     (Or.inr (by decide))⟩

/-- One bubble of the in-memory display history
(`st.session_state.chat_history`); the fixed HTML the code wraps around
the displayed fields is presentation only and is dropped. -/
inductive DisplayMsg where
  | user (timestamp : Nat) (content : String)
  | assistant (timestamp : Nat) (content : String)
deriving DecidableEq, Repr

/-- The slice of state the Generate-Code flow reads and writes: the
session's bandit table and last chosen arm, the display history, the last
artifact, the authentication flag, and the signed-in user's tenant
store. -/
structure AppState where
  Q_table : List ℚ
  last_action_idx : Nat
  chat_history : List DisplayMsg
  generated_code : String
  authenticated : Bool
  tenant : TenantDB
deriving DecidableEq, Repr

/-- The observable outcome of the `requests.post` call (src/output.py
lines 974-983): a response bearing its HTTP status and the JSON `response`
field (empty when absent), or a raised `requests` exception such as a
timeout. -/
inductive GenOutcome where
  | response (status : Nat) (body : String)
  | exc (msg : String)
deriving DecidableEq, Repr

/-- Whether the generation failed: any HTTP status other than 200 (which
covers every non-2xx status) or a raised request exception. -/
def genFailed : GenOutcome → Bool
  | .response status _ => status != 200
  | .exc _ => true

/-- `save_chat_history` (src/output.py lines 161-170): append one row with
the current timestamp. -/
def save_chat_history (db : TenantDB) (now : Nat)
    (user_input generated_code : String) : TenantDB :=
  { db with chat_history :=
      db.chat_history ++ [⟨now, user_input, generated_code⟩] }

/-- The Generate-Code submit flow of `display_main_app` (src/output.py
lines 952-1027) for a given user input: when the input is nonempty, an arm
is chosen (epsilon 0.1, the random draws explicit as in `get_action`) and
recorded in `last_action_idx` before the API call; then on HTTP 200 the
response is parsed, the artifact stored, the user/assistant pair appended
to the display history and, when authenticated, a row appended to the
tenant store's chat_history; on any other status or a raised exception
only an error message is shown. -/
def submit_request (s : AppState) (user_input : String) (now : Nat)
    (draw : ℚ) (randPick : Nat) (outcome : GenOutcome) : AppState :=
  if user_input = "" then s
  else
    let action_idx := get_action s.Q_table (1/10) draw randPick
    let s1 := { s with last_action_idx := action_idx }
    match outcome with
    | .response status body =>
        if status = 200 then
          let generated := parseResponse body
          let s2 := { s1 with
            generated_code := generated,
            chat_history := s1.chat_history
              ++ [DisplayMsg.user now user_input,
                  DisplayMsg.assistant now generated] }
          if s2.authenticated then
            { s2 with
                tenant := save_chat_history s2.tenant now user_input generated }
          else s2
        else s1
    | .exc _ => s1

/-- A concrete pre-request state for the C4 counterexample: arm 2 was
recorded by an earlier generation. -/
def preFailureState : AppState :=
  ⟨[0, 0, 0, 0], 2, [], "", true, ⟨[], [defaultPreferences]⟩⟩

/-- C4 counterexample: a failed generation (HTTP 500) does not leave the
bandit state intact — `last_action_idx` is overwritten with the freshly
chosen arm (here 0, the greedy choice on the all-zero table) before the
request is issued, losing its prior value 2. -/
theorem failed_request_changes_arm :
    (submit_request preFailureState "add two numbers" 7 (1/2) 0
        (.response 500 "server error")).last_action_idx = 0
    ∧ preFailureState.last_action_idx = 2
    ∧ (submit_request preFailureState "add two numbers" 7 (1/2) 0
        (.response 500 "server error")).last_action_idx
      ≠ preFailureState.last_action_idx := by
  have hdraw : ¬((1 : ℚ)/2 < 1/10) := by norm_num
  have h1 : (submit_request preFailureState "add two numbers" 7 (1/2) 0
      (.response 500 "server error")).last_action_idx = 0 := by
    simp [submit_request, preFailureState, get_action, hdraw, np_argmax, np_max]
  refine ⟨h1, rfl, ?_⟩
  rw [h1]
  simp [preFailureState]

/-- C4 corrected: a failed generation (HTTP status other than 200, or a
request exception such as a timeout) leaves the value table, the display
chat history, the tenant store's chat history and the stored artifact
unchanged and writes no ChatEntry; `last_action_idx`, however, has by then
been overwritten with the arm chosen for the failed request; an empty
input leaves the whole state untouched. -/
theorem failed_request_preserves_state (s : AppState) (user_input : String)
    (now : Nat) (draw : ℚ) (randPick : Nat) (outcome : GenOutcome)
    (hfail : genFailed outcome = true) :
    (submit_request s user_input now draw randPick outcome).Q_table = s.Q_table
    ∧ (submit_request s user_input now draw randPick outcome).chat_history
        = s.chat_history
    ∧ (submit_request s user_input now draw randPick outcome).tenant = s.tenant
    ∧ (submit_request s user_input now draw randPick outcome).generated_code
        = s.generated_code
    ∧ (user_input ≠ "" →
        (submit_request s user_input now draw randPick outcome).last_action_idx
          = get_action s.Q_table (1/10) draw randPick) := by
  by_cases hin : user_input = ""
  · simp [submit_request, hin]
  · cases outcome with
    | response status body =>
        have hst : status ≠ 200 := by simpa [genFailed] using hfail
        simp [submit_request, hin, hst]
    | exc m => simp [submit_request, hin]

theorem failed_request_preserves_state_witness :
    genFailed (.response 500 "oops") = true
    ∧ ((submit_request preFailureState "x" 7 (1/2) 0
          (.response 500 "oops")).Q_table = preFailureState.Q_table
      ∧ (submit_request preFailureState "x" 7 (1/2) 0
          (.response 500 "oops")).chat_history = preFailureState.chat_history
      ∧ (submit_request preFailureState "x" 7 (1/2) 0
          (.response 500 "oops")).tenant = preFailureState.tenant
      ∧ (submit_request preFailureState "x" 7 (1/2) 0
          (.response 500 "oops")).generated_code
            = preFailureState.generated_code
      ∧ (("x" : String) ≠ "" →
          (submit_request preFailureState "x" 7 (1/2) 0
            (.response 500 "oops")).last_action_idx
              = get_action preFailureState.Q_table (1/10) (1/2) 0)) :=
  ⟨rfl, failed_request_preserves_state preFailureState "x" 7 (1/2) 0
    (.response 500 "oops") rfl⟩

end Coderzz
